import Mathlib

/-!
# Verification of the GitHub report package (comment reconciliation engine)

A shallow embedding of the `report` Go package: the status mapper
(`prowjobStateToGitHubStatus`), the comment history parser and entry
reconciler (`parseIssueComments`), the entry and comment renderers
(`createEntry`, `createComment`), and the synchronizer entry points
(`createOrUpdateComments`, `ReportStatusContext`, `ReportComment`,
`issueHasComment`).

Remote GitHub calls are modelled as a pure trace: each function returns
`Except String (List RemoteCall)`, the ordered list of remote operations it
performs (reads and mutations).  The remote store itself is modelled by
`GHClientData`, pure functions giving the result of each listing call; the
mutation calls are modelled as always succeeding, so the only error sources
are the ones internal to the package (unknown job state, template failure,
missing client).
-/

namespace Report

/-- Equality of `Except` results is decidable; used to evaluate the
embedding at concrete inputs. -/
instance {ε α : Type} [DecidableEq ε] [DecidableEq α] : DecidableEq (Except ε α) := fun a b =>
  match a, b with
  | .error e1, .error e2 => decidable_of_iff (e1 = e2) (by simp)
  | .ok a1, .ok a2 => decidable_of_iff (a1 = a2) (by simp)
  | .error _, .ok _ => isFalse (by simp)
  | .ok _, .error _ => isFalse (by simp)

/-- Modelled from the spec (§6): the status vocabulary is four fixed
literals.  Mirrors `github.StatusPending` from the external github package
(not part of the sources). -/
def StatusPending : String := "pending"

/-- Modelled from the spec (§6): mirrors `github.StatusSuccess`. -/
def StatusSuccess : String := "success"

/-- Modelled from the spec (§6): mirrors `github.StatusError`. -/
def StatusError : String := "error"

/-- Modelled from the spec (§6): mirrors `github.StatusFailure`. -/
def StatusFailure : String := "failure"

/-- Modelled from the spec (§3): the outcome enum of the prow API package
(not part of the sources) is a typed string; `prowapi.TriggeredState` is the
literal "triggered". -/
def TriggeredState : String := "triggered"

/-- Modelled from the spec (§3): `prowapi.PendingState`. -/
def PendingState : String := "pending"

/-- Modelled from the spec (§3): `prowapi.SuccessState`. -/
def SuccessState : String := "success"

/-- Modelled from the spec (§3): `prowapi.FailureState`.  Its literal
coincides with `StatusFailure`; `parseIssueComments` relies on that when it
compares `string(pj.Status.State) == github.StatusFailure`. -/
def FailureState : String := "failure"

/-- Modelled from the spec (§3): `prowapi.AbortedState`. -/
def AbortedState : String := "aborted"

/-- Modelled from the spec (§3): `prowapi.ErrorState`. -/
def ErrorState : String := "error"

/-- `prowapi.ProwJobType`: the job kinds of the prow API. -/
inductive JobType
  | presubmit
  | postsubmit
  | periodic
  | batch
deriving DecidableEq, Repr

/-- `prowapi.Pull`: one pull request reference. -/
structure Pull where
  number : Int
  sha : String
  author : String
deriving DecidableEq, Repr

instance : Inhabited Pull := ⟨⟨0, "", ""⟩⟩

/-- `prowapi.Refs`: the review unit a job reports against. -/
structure Refs where
  org : String
  repo : String
  baseSHA : String
  author : String
  pulls : List Pull
deriving DecidableEq, Repr

/-- `prowapi.GitHubReporterConfig` (the fork's comment-on-postsubmits knob). -/
structure GitHubReporterConfig where
  commentOnPostsubmits : Bool
deriving DecidableEq, Repr

/-- `prowapi.ReporterConfig`. -/
structure ReporterConfig where
  github : Option GitHubReporterConfig
deriving DecidableEq, Repr

/-- The fields of `prowapi.ProwJobSpec` the report package reads. -/
structure ProwJobSpec where
  type : JobType
  report : Bool
  context : String
  refs : Refs
  rerunCommand : String
  reporterConfig : Option ReporterConfig
deriving DecidableEq, Repr

/-- The fields of `prowapi.ProwJobStatus` the report package reads.  The
state is a typed string in Go; `completionTime` is a nullable timestamp and
only its presence matters (`ProwJob.Complete()`). -/
structure ProwJobStatus where
  state : String
  url : String
  description : String
  completionTime : Option Nat
deriving DecidableEq, Repr

/-- A prow job, restricted to the fields the report package reads.  Go's
`Labels` map is modelled as an association list (`List.lookup` gives map
semantics). -/
structure ProwJob where
  name : String
  labels : List (String × String)
  spec : ProwJobSpec
  status : ProwJobStatus
deriving DecidableEq, Repr

/-- `ProwJob.Complete()`: the completion timestamp is set. -/
def ProwJob.complete (pj : ProwJob) : Bool :=
  pj.status.completionTime.isSome

/-- `github.User`. -/
structure User where
  login : String
deriving DecidableEq, Repr

/-- `github.IssueComment` (also used for commit comments, as in the Go
client). -/
structure IssueComment where
  id : Int
  user : User
  body : String
deriving DecidableEq, Repr

/-- `github.Status`: the payload of a create-status call. -/
structure Status where
  state : String
  description : String
  context : String
  targetURL : String
deriving DecidableEq, Repr

/-- `config.GitHubReporter`: the caller-side allow-list of job kinds. -/
structure GitHubReporter where
  jobTypesToReport : List JobType
deriving DecidableEq, Repr

/-- `const commentTag`: the hidden marker identifying managed comments. -/
def commentTag : String := "<!-- test report -->"

/-- `const prCommitNote`: the fixed one-time note text. -/
def prCommitNote : String := "postsubmit job(s) were triggered at commit: "

/-- `prowjobStateToGitHubStatus`: maps a prowjob state to a github status,
failing on anything outside the six known states. -/
def prowjobStateToGitHubStatus (pjState : String) : Except String String :=
  if pjState = TriggeredState then .ok StatusPending
  else if pjState = PendingState then .ok StatusPending
  else if pjState = SuccessState then .ok StatusSuccess
  else if pjState = ErrorState then .ok StatusError
  else if pjState = FailureState then .ok StatusFailure
  else if pjState = AbortedState then .ok StatusFailure
  else .error ("Unknown prowjob state: " ++ pjState)

/-- Substring search over character lists: some suffix of the text starts
with the pattern. -/
def containsSub (pat : List Char) : List Char → Bool
  | [] => pat.isPrefixOf ([] : List Char)
  | c :: rest => pat.isPrefixOf (c :: rest) || containsSub pat rest

/-- `strings.Contains`: `pat` occurs as a contiguous substring of `s`. -/
def strContains (s pat : String) : Bool :=
  containsSub pat.toList s.toList

/-- `strings.HasPrefix`. -/
def strStartsWith (s pre : String) : Bool :=
  pre.toList.isPrefixOf s.toList

/-- Go's `unicode.IsSpace` on the characters `strings.TrimSpace` strips. -/
def isSpaceChar (c : Char) : Bool :=
  c = ' ' || c = '\t' || c = '\n' || c = '\x0b' || c = '\x0c' || c = '\r' ||
    c = '\u0085' || c = '\u00A0'

/-- `strings.TrimSpace`: strip whitespace from both ends. -/
def strTrim (s : String) : String :=
  String.mk (((s.toList.dropWhile isSpaceChar).reverse.dropWhile isSpaceChar).reverse)

/-- The worker of `strSplit`: cut the text at each occurrence of the
separator.  The fuel argument (at least the text length plus one) only
makes the recursion structural; it never runs out for a non-empty
separator. -/
def goSplit (sep : List Char) : Nat → List Char → List Char → List (List Char)
  | 0, rem, acc => [acc.reverse ++ rem]
  | fuel + 1, rem, acc =>
    match rem with
    | [] => [acc.reverse]
    | c :: rest =>
      if sep.isPrefixOf rem then
        acc.reverse :: goSplit sep fuel (rem.drop sep.length) []
      else
        goSplit sep fuel rest (c :: acc)

/-- `strings.Split` for a non-empty separator (the only way this package
calls it): the fields of `s` between occurrences of `sep`; never returns an
empty list. -/
def strSplit (s sep : String) : List String :=
  if sep.toList = [] then [s]
  else (goSplit sep.toList (s.toList.length + 1) s.toList []).map String.mk

/-- One line of the history parser's line walk (`parseIssueComments`, first
loop body): the accumulator is Go's mutable `tracking` flag paired with the
entries collected so far.  A line starting with "---" opens capture mode, a
blank (after trimming) line closes it, and any other line is appended,
trimmed, while capturing. -/
def parseBodyStep (acc : Bool × List String) (rawLine : String) : Bool × List String :=
  let line := strTrim rawLine
  if strStartsWith line "---" then (true, acc.2)
  else if line.length = 0 then (false, acc.2)
  else if acc.1 then (acc.1, acc.2 ++ [line])
  else acc

/-- The entries captured from one comment body: Go's
`for _, line := range strings.Split(ic.Body, "\n")` walk with the mutable
`tracking` flag, as a fold. -/
def parseBodyEntries (body : String) : List String :=
  ((strSplit body "\n").foldl parseBodyStep (false, [])).2

/-- The loop-local accumulator of `parseIssueComments`' first loop:
`previousComments`, `latestComment` (0 = none, Go's zero value), and the
captured `entries`. -/
structure Scan where
  previous : List Int
  latest : Int
  entries : List String
deriving DecidableEq, Repr

/-- One iteration of `parseIssueComments`' first loop: skip comments not
authored by the bot or without the marker; otherwise shift the recorded
latest id (if any) into `previous`, record the new id as latest, and append
the comment's captured entries. -/
def scanStep (isBot : String → Bool) (s : Scan) (ic : IssueComment) : Scan :=
  if !(isBot ic.user.login) then s
  else if !(strContains ic.body commentTag) then s
  else
    { previous := s.previous ++ (if s.latest != 0 then [s.latest] else [])
      latest := ic.id
      entries := s.entries ++ parseBodyEntries ic.body }

/-- The whole first loop of `parseIssueComments`. -/
def scanComments (isBot : String → Bool) (ics : List IssueComment) : Scan :=
  ics.foldl (scanStep isBot) ⟨[], 0, []⟩

/-- An entry's identity key: everything before the first " | " delimiter
(`strings.Split(entry, " | ")[0]`; `strSplit` never returns `[]`, matching
Go's `Split` which never returns an empty slice). -/
def entryKey (e : String) : String :=
  ((strSplit e " | ").headD "")

/-- The keep/drop loop of `parseIssueComments`.  Go scans every index `j`
for the entry at index `i`; the guard `i != j && j > i && f2[0] == f1[0]`
holds exactly when some *later* entry shares the leading key, hence the
recursion checks the remaining suffix.  `pjsMap` is a map keyed by
`Spec.Context` used only for key membership, modelled by the `contexts`
list. -/
def newEntriesOf : List String → List String → List String
  | [], _ => []
  | e :: rest, contexts =>
    if rest.any (fun e2 => entryKey e2 == entryKey e) then newEntriesOf rest contexts
    else if contexts.contains (entryKey e) then newEntriesOf rest contexts
    else e :: newEntriesOf rest contexts

/-- `kube.IsOptionalLabel`, a constant of the external kube package. -/
def IsOptionalLabel : String := "prow.k8s.io/is-optional"

/-- Go's `strconv.ParseBool` (standard library). -/
def parseBool (str : String) : Except String Bool :=
  if str = "1" ∨ str = "t" ∨ str = "T" ∨ str = "true" ∨ str = "TRUE" ∨ str = "True" then
    .ok true
  else if str = "0" ∨ str = "f" ∨ str = "F" ∨ str = "false" ∨ str = "FALSE" ∨ str = "False" then
    .ok false
  else
    .error "invalid syntax"

/-- Go's `strconv.FormatBool`. -/
def formatBool (b : Bool) : String := if b then "true" else "false"

/-- `createEntry`: one freshly rendered table row.  For presubmit rows Go
indexes `Refs.Pulls[0]`; callers only render rows for jobs carrying a pull,
modelled with `headD default`. -/
def createEntry (pj : ProwJob) : String :=
  let required :=
    if pj.spec.type = JobType.presubmit then
      match pj.labels.lookup IsOptionalLabel with
      | some label =>
        match parseBool label with
        | .ok optional => formatBool (!optional)
        | .error _ => "unknown"
      | none => "unknown"
    else "unknown"
  if pj.spec.type = JobType.postsubmit then
    String.intercalate " | "
      [pj.spec.context, pj.spec.refs.baseSHA,
       "[link](" ++ pj.status.url ++ ")"]
  else
    String.intercalate " | "
      [pj.spec.context, (pj.spec.refs.pulls.headD default).sha,
       "[link](" ++ pj.status.url ++ ")", required,
       "`" ++ pj.spec.rerunCommand ++ "`"]

/-- The fresh-failure loop of `parseIssueComments`: for every job whose
state equals `github.StatusFailure` append a freshly rendered entry and set
`createNewComment`. -/
def appendFresh (pjs : List ProwJob) (entries : List String) : List String × Bool :=
  pjs.foldl
    (fun acc pj =>
      if pj.status.state = StatusFailure then (acc.1 ++ [createEntry pj], true) else acc)
    (entries, false)

/-- `parseIssueComments`: returns the comments to delete, the final entry
list, and the id of the comment to update (0 = create a new one). -/
def parseIssueComments (pjs : List ProwJob) (isBot : String → Bool)
    (ics : List IssueComment) : List Int × List String × Int :=
  let scan := scanComments isBot ics
  let contexts := pjs.map (fun pj => pj.spec.context)
  let kept := newEntriesOf scan.entries contexts
  let fresh := appendFresh pjs kept
  if (fresh.2 || fresh.1.isEmpty) && scan.latest != 0 then
    (scan.previous ++ [scan.latest], fresh.1, 0)
  else
    (scan.previous, fresh.1, scan.latest)

/-- Spec §4.3 rule 2, stated from the spec's words: an entry's *last*
occurrence among the parsed history wins — when two entries share a context
key, only the one encountered later in the scan is retained. -/
def lastOccurrenceWins : List String → List String
  | [] => []
  | e :: rest =>
    if rest.any (fun e2 => entryKey e2 == entryKey e) then lastOccurrenceWins rest
    else e :: lastOccurrenceWins rest

/-- The fresh-failure loop as filter/any: folding from an arbitrary
accumulator appends one rendered row per Failure job and ors the flag with
"some job failed". -/
theorem appendFresh_foldl (pjs : List ProwJob) (entries : List String) (b : Bool) :
    pjs.foldl
      (fun acc pj =>
        if pj.status.state = StatusFailure then (acc.1 ++ [createEntry pj], true) else acc)
      (entries, b)
      = (entries ++ (pjs.filter (fun pj => pj.status.state == StatusFailure)).map createEntry,
         b || pjs.any (fun pj => pj.status.state == StatusFailure)) := by
  induction pjs generalizing entries b with
  | nil => simp
  | cons pj rest ih =>
    by_cases h : pj.status.state = StatusFailure
    · have hb : (pj.status.state == StatusFailure) = true := by simp [h]
      simp [List.foldl_cons, h, hb, ih, List.filter_cons, List.any_cons]
    · have hb : (pj.status.state == StatusFailure) = false := by simp [h]
      simp [List.foldl_cons, h, hb, ih, List.filter_cons, List.any_cons]

/-- `appendFresh` in closed form. -/
theorem appendFresh_eq (pjs : List ProwJob) (entries : List String) :
    appendFresh pjs entries
      = (entries ++ (pjs.filter (fun pj => pj.status.state == StatusFailure)).map createEntry,
         pjs.any (fun pj => pj.status.state == StatusFailure)) := by
  rw [appendFresh, appendFresh_foldl, Bool.false_or]

/-- C1: the reconciler's keep/drop pass retains, of the parsed historical
entries, only the last occurrence of each context key, and then drops every
surviving entry whose key is the context of some job of the current batch —
based purely on the batch's context names, hence even when that job
produces no fresh row. -/
theorem reconciler_keeps_last_occurrence_and_drops_batch_contexts
    (entries : List String) (pjs : List ProwJob) :
    newEntriesOf entries (pjs.map (fun pj => pj.spec.context)) =
      (lastOccurrenceWins entries).filter
        (fun e => !((pjs.map (fun pj => pj.spec.context)).contains (entryKey e))) := by
  generalize pjs.map (fun pj => pj.spec.context) = contexts
  induction entries with
  | nil => rfl
  | cons e rest ih =>
    by_cases h : rest.any (fun e2 => entryKey e2 == entryKey e)
    · simp [newEntriesOf, lastOccurrenceWins, h, ih]
    · by_cases hc : contexts.contains (entryKey e)
      · simp [newEntriesOf, lastOccurrenceWins, h, hc, ih, List.filter_cons]
      · simp [newEntriesOf, lastOccurrenceWins, h, hc, ih, List.filter_cons]

/-- C2: the deletion set returned by the reconciler is all "previous"
own+marked comment ids, plus the "latest" id exactly when a fresh Failure
entry was appended (`mustCreateNew`) or the final entry list is empty (and a
latest exists); whenever "latest" is added the returned update target is 0. -/
theorem reconciler_deletion_set_and_update_target
    (pjs : List ProwJob) (isBot : String → Bool) (ics : List IssueComment) :
    (parseIssueComments pjs isBot ics).1 =
      (scanComments isBot ics).previous ++
        (if ((pjs.any (fun pj => pj.status.state == StatusFailure)) ||
              (parseIssueComments pjs isBot ics).2.1.isEmpty) &&
            ((scanComments isBot ics).latest != 0) then
          [(scanComments isBot ics).latest]
        else []) ∧
    ((((pjs.any (fun pj => pj.status.state == StatusFailure)) ||
          (parseIssueComments pjs isBot ics).2.1.isEmpty) &&
        ((scanComments isBot ics).latest != 0)) = true →
      (parseIssueComments pjs isBot ics).2.2 = 0) := by
  have hout : parseIssueComments pjs isBot ics =
      (let scan := scanComments isBot ics
       let newEntries := newEntriesOf scan.entries (pjs.map (fun pj => pj.spec.context)) ++
         (pjs.filter (fun pj => pj.status.state == StatusFailure)).map createEntry
       let mustCreateNew := pjs.any (fun pj => pj.status.state == StatusFailure)
       if (mustCreateNew || newEntries.isEmpty) && (scan.latest != 0) then
         (scan.previous ++ [scan.latest], newEntries, 0)
       else (scan.previous, newEntries, scan.latest)) := by
    rw [parseIssueComments, appendFresh_eq]
  rw [hout]
  by_cases hcond : ((pjs.any (fun pj => pj.status.state == StatusFailure)) ||
      (newEntriesOf (scanComments isBot ics).entries (pjs.map (fun pj => pj.spec.context)) ++
        (pjs.filter (fun pj => pj.status.state == StatusFailure)).map createEntry).isEmpty) &&
      ((scanComments isBot ics).latest != 0)
  · simp only [hcond, if_true]
    simp [hcond]
  · simp only [hcond, if_false]
    simp [hcond]

/-- Spec §4.2's line walk, stated recursively from the spec's words: a line
beginning with the table-divider ("---") opens capture mode, a blank line
closes it, any other line while capturing is trimmed and appended as an
entry. -/
def captureLines : List String → Bool → List String
  | [], _ => []
  | raw :: rest, capturing =>
    let line := strTrim raw
    if strStartsWith line "---" then captureLines rest true
    else if line.length = 0 then captureLines rest false
    else if capturing then line :: captureLines rest true
    else captureLines rest false

/-- Spec §4.2: a comment is processed only when it is the bot's own and
carries the marker. -/
def ownMarked (isBot : String → Bool) (ic : IssueComment) : Bool :=
  isBot ic.user.login && strContains ic.body commentTag

/-- The imperative line walk (fold with a tracking flag) agrees with the
spec's recursive description of capture mode. -/
theorem parseBody_foldl_eq_captureLines (lines : List String) (acc : List String)
    (tracking : Bool) :
    (lines.foldl parseBodyStep (tracking, acc)).2 = acc ++ captureLines lines tracking := by
  induction lines generalizing acc tracking with
  | nil => simp [captureLines]
  | cons raw rest ih =>
    by_cases h1 : strStartsWith (strTrim raw) "---"
    · simp [List.foldl_cons, parseBodyStep, captureLines, h1, ih]
    · by_cases h2 : (strTrim raw).length = 0
      · simp [List.foldl_cons, parseBodyStep, captureLines, h1, h2, ih]
      · cases tracking with
        | true =>
          simp [List.foldl_cons, parseBodyStep, captureLines, h1, h2, ih]
        | false =>
          simp [List.foldl_cons, parseBodyStep, captureLines, h1, h2, ih]

/-- The entries of one comment body, in closed form. -/
theorem parseBodyEntries_eq_captureLines (body : String) :
    parseBodyEntries body = captureLines (strSplit body "\n") false := by
  rw [parseBodyEntries, parseBody_foldl_eq_captureLines, List.nil_append]

/-- The scan's entry accumulation: entries of the processed (own+marked)
comments are concatenated in encounter order, after any initial entries. -/
theorem scan_entries (isBot : String → Bool) (ics : List IssueComment) (s : Scan) :
    (ics.foldl (scanStep isBot) s).entries =
      s.entries ++ (ics.filter (ownMarked isBot)).flatMap (fun ic => parseBodyEntries ic.body) := by
  induction ics generalizing s with
  | nil => simp
  | cons ic rest ih =>
    by_cases hb : isBot ic.user.login
    · by_cases hm : strContains ic.body commentTag
      · simp [List.foldl_cons, scanStep, hb, hm, ih, ownMarked, List.filter_cons]
      · simp [List.foldl_cons, scanStep, hb, hm, ih, ownMarked, List.filter_cons]
    · simp [List.foldl_cons, scanStep, hb, ih, ownMarked, List.filter_cons]

/-- The scan's latest id is the id of the last processed comment (or the
initial value when none is processed). -/
theorem scan_latest (isBot : String → Bool) (ics : List IssueComment) (s : Scan) :
    (ics.foldl (scanStep isBot) s).latest =
      ((ics.filter (ownMarked isBot)).map (fun ic => ic.id)).getLastD s.latest := by
  induction ics generalizing s with
  | nil => simp
  | cons ic rest ih =>
    by_cases hb : isBot ic.user.login
    · by_cases hm : strContains ic.body commentTag
      · have hom : ownMarked isBot ic = true := by simp [ownMarked, hb, hm]
        rw [List.foldl_cons]
        rw [show scanStep isBot s ic =
          { previous := s.previous ++ (if s.latest != 0 then [s.latest] else [])
            latest := ic.id
            entries := s.entries ++ parseBodyEntries ic.body } from by
            simp [scanStep, hb, hm]]
        rw [ih]
        simp only [List.filter_cons, hom, if_true, List.map_cons, List.getLastD_cons]
      · simp [List.foldl_cons, scanStep, hb, hm, ih, ownMarked, List.filter_cons]
    · simp [List.foldl_cons, scanStep, hb, ih, ownMarked, List.filter_cons]

/-- The scan's previous ids together with the final latest id are exactly
the ids of the processed comments, in encounter order, provided no real
comment carries the sentinel id 0. -/
theorem scan_ids (isBot : String → Bool) (ics : List IssueComment) (s : Scan)
    (h : ∀ ic ∈ ics, ic.id ≠ 0) :
    (ics.foldl (scanStep isBot) s).previous ++
        (if (ics.foldl (scanStep isBot) s).latest != 0
          then [(ics.foldl (scanStep isBot) s).latest] else []) =
      (s.previous ++ (if s.latest != 0 then [s.latest] else [])) ++
        (ics.filter (ownMarked isBot)).map (fun ic => ic.id) := by
  induction ics generalizing s with
  | nil => simp
  | cons ic rest ih =>
    have hid : ic.id ≠ 0 := h ic (by simp)
    have hrest : ∀ x ∈ rest, x.id ≠ 0 := fun x hx => h x (by simp [hx])
    by_cases hb : isBot ic.user.login
    · by_cases hm : strContains ic.body commentTag
      · rw [List.foldl_cons]
        rw [show scanStep isBot s ic =
          { previous := s.previous ++ (if s.latest != 0 then [s.latest] else [])
            latest := ic.id
            entries := s.entries ++ parseBodyEntries ic.body } from by
            simp [scanStep, hb, hm]]
        rw [ih _ hrest]
        simp [ownMarked, hb, hm, List.filter_cons, hid, List.append_assoc]
      · have hom : ownMarked isBot ic = false := by simp [ownMarked, hb, hm]
        rw [List.foldl_cons, show scanStep isBot s ic = s from by simp [scanStep, hb, hm]]
        rw [ih _ hrest]
        simp [List.filter_cons, hom]
    · have hom : ownMarked isBot ic = false := by simp [ownMarked, hb]
      rw [List.foldl_cons, show scanStep isBot s ic = s from by simp [scanStep, hb]]
      rw [ih _ hrest]
      simp [List.filter_cons, hom]

/-- C4: the history parser processes exactly the bot-authored comments
containing the marker: their captured entries (per the divider/blank-line
walk, spelled out by `captureLines`) are concatenated in order, the list of
"previous" ids followed by the final "latest" id is exactly the processed
comments' ids in encounter order (each new own+marked comment shifts the
recorded latest into "previous"), and "latest" is the last processed id. -/
theorem history_parser_characterization (isBot : String → Bool) (ics : List IssueComment)
    (h : ∀ ic ∈ ics, ic.id ≠ 0) :
    (scanComments isBot ics).entries =
      (ics.filter (ownMarked isBot)).flatMap (fun ic => captureLines (strSplit ic.body "\n") false) ∧
    (scanComments isBot ics).previous ++
        (if (scanComments isBot ics).latest != 0 then [(scanComments isBot ics).latest] else []) =
      (ics.filter (ownMarked isBot)).map (fun ic => ic.id) ∧
    (scanComments isBot ics).latest =
      ((ics.filter (ownMarked isBot)).map (fun ic => ic.id)).getLastD 0 := by
  refine ⟨?_, ?_, ?_⟩
  · rw [scanComments, scan_entries]
    simp [parseBodyEntries_eq_captureLines]
  · rw [scanComments, scan_ids isBot ics _ h]
    simp
  · rw [scanComments, scan_latest]

/-- `plugins.AboutThisBot`, a constant of the external plugins package: the
fixed boilerplate paragraph of every synchronized comment (its literal text
is visible in the package's tests). -/
def AboutThisBot : String :=
  "Instructions for interacting with me using PR comments are available [here](https://git.k8s.io/community/contributors/guide/pull-requests.md).  If you have questions or suggestions related to my behavior, please file an issue against the [kubernetes/test-infra](https://github.com/kubernetes/test-infra/issues/new?title=Prow%20issue:) repository. I understand the commands that are listed [here](https://go.k8s.io/bot-commands)."

/-- The report template: `*template.Template` is modelled as an optional
function from the first job to the rendered text or an execution error. -/
def templateRes (reportTemplate : Option (ProwJob → Except String String))
    (pj : ProwJob) : Except String String :=
  match reportTemplate with
  | some f => f pj
  | none => .ok ""

/-- `createComment`: renders the comment body from the final entry list.
Go indexes `Spec.Refs.Pulls[0]` for presubmit authors; callers guarantee a
pull in that case, modelled with `headD default`. -/
def createComment (reportTemplate : Option (ProwJob → Except String String))
    (pjs : List ProwJob) (entries : List String) : Except String String :=
  match pjs with
  | [] => .ok ""
  | pj0 :: _ =>
    match templateRes reportTemplate pj0 with
    | .error e => .error e
    | .ok tout =>
      let plural := if entries.length > 1 then "s" else ""
      let lines :=
        if pj0.spec.type = JobType.postsubmit then
          ["@" ++ pj0.spec.refs.author ++ ": The following test" ++ plural ++ " **failed**:",
           "",
           "Test name | Commit | Details",
           "--- | --- | ---"]
        else
          ["@" ++ (pj0.spec.refs.pulls.headD default).author ++ ": The following test" ++
             plural ++
             " **failed**, say `/retest` to rerun all failed tests or `/retest-required` to rerun all mandatory failed tests:",
           "",
           "Test name | Commit | Details | Required | Rerun command",
           "--- | --- | --- | --- | ---"]
      let lines :=
        if entries.length = 0 then
          let author :=
            if pj0.spec.type = JobType.postsubmit then pj0.spec.refs.author
            else (pj0.spec.refs.pulls.headD default).author
          ["@" ++ author ++ ": all tests **passed!**", ""]
        else lines
      let lines := lines ++ entries
      let lines := if reportTemplate.isSome then lines ++ ["", tout] else lines
      let lines := lines ++ ["", "<details>", "", AboutThisBot, "</details>", commentTag]
      .ok (String.intercalate "\n" lines)

/-- Spec §4.4: the author a comment addresses — the pull author for
pre-merge jobs, the push author for post-merge jobs. -/
def commentAuthor (pj : ProwJob) : String :=
  if pj.spec.type = JobType.postsubmit then pj.spec.refs.author
  else (pj.spec.refs.pulls.headD default).author

/-- Spec §4.4: the pluralization suffix keyed on entry count. -/
def pluralSuffix (entries : List String) : String :=
  if entries.length > 1 then "s" else ""

/-- Spec §4.4: the post-merge header block — wording without rerun hints,
3 columns. -/
def postsubmitHeader (author plural : String) : List String :=
  ["@" ++ author ++ ": The following test" ++ plural ++ " **failed**:",
   "",
   "Test name | Commit | Details",
   "--- | --- | ---"]

/-- Spec §4.4: the pre-merge header block — wording with rerun hints,
5 columns. -/
def presubmitHeader (author plural : String) : List String :=
  ["@" ++ author ++ ": The following test" ++ plural ++
     " **failed**, say `/retest` to rerun all failed tests or `/retest-required` to rerun all mandatory failed tests:",
   "",
   "Test name | Commit | Details | Required | Rerun command",
   "--- | --- | --- | --- | ---"]

/-- Spec §4.4: the zero-entry variant — no table header at all. -/
def passedHeader (author : String) : List String :=
  ["@" ++ author ++ ": all tests **passed!**", ""]

/-- Spec §4.4: the fixed closing boilerplate, terminated by the marker. -/
def closingLines : List String :=
  ["", "<details>", "", AboutThisBot, "</details>", commentTag]

/-- A concrete presubmit job for evaluating the renderer. -/
def demoRendererJob : ProwJob :=
  { name := "job-a", labels := [],
    spec := { type := .presubmit, report := true, context := "bla test",
              refs := { org := "k8s", repo := "test-infra", baseSHA := "base",
                        author := "pusher", pulls := [⟨1, "abcdef", "chaodaig"⟩] },
              rerunCommand := "/test bla", reporterConfig := none },
    status := { state := "failure", url := "http://mytest.com", description := "",
                completionTime := some 1 } }

/-- C6: with zero entries the renderer yields the "all tests passed"
variant with no table header, identically worded for pre- and post-merge
batches (only the addressed author is taken from the pull vs the push); and
with a non-empty entry list the rendered body is header block ++ entries ++
template output ++ closing block, where only the header block (wording and
column count) depends on the job kind. -/
theorem renderer_zero_entries_passed_variant
    (reportTemplate : Option (ProwJob → Except String String)) (pj0 : ProwJob)
    (rest : List ProwJob) (entries : List String) (tout : String)
    (ht : templateRes reportTemplate pj0 = .ok tout) :
    createComment reportTemplate (pj0 :: rest) [] =
      .ok (String.intercalate "\n"
        (passedHeader (commentAuthor pj0) ++
          (if reportTemplate.isSome then ["", tout] else []) ++ closingLines)) ∧
    (entries ≠ [] →
      createComment reportTemplate (pj0 :: rest) entries =
        .ok (String.intercalate "\n"
          ((if pj0.spec.type = JobType.postsubmit
              then postsubmitHeader (commentAuthor pj0) (pluralSuffix entries)
              else presubmitHeader (commentAuthor pj0) (pluralSuffix entries)) ++
            entries ++ (if reportTemplate.isSome then ["", tout] else []) ++ closingLines))) := by
  constructor
  · rw [createComment, ht]
    by_cases hk : pj0.spec.type = JobType.postsubmit
    · cases reportTemplate <;>
        simp [hk, passedHeader, closingLines, commentAuthor, List.append_assoc]
    · cases reportTemplate <;>
        simp [hk, passedHeader, closingLines, commentAuthor, List.append_assoc]
  · intro hne
    rw [createComment, ht]
    have hlen : ¬entries.length = 0 := by simpa using hne
    by_cases hk : pj0.spec.type = JobType.postsubmit
    · cases reportTemplate <;>
        simp [hk, hlen, postsubmitHeader, presubmitHeader, pluralSuffix, closingLines,
          commentAuthor, List.append_assoc]
    · cases reportTemplate <;>
        simp [hk, hlen, postsubmitHeader, presubmitHeader, pluralSuffix, closingLines,
          commentAuthor, List.append_assoc]

/-- Witness for C6: the renderer evaluated for a concrete presubmit batch
with no template, both for zero entries and for one entry. -/
theorem renderer_zero_entries_passed_variant_witness :
    templateRes none demoRendererJob = .ok "" ∧
    (createComment none (demoRendererJob :: []) [] =
      .ok (String.intercalate "\n"
        (passedHeader (commentAuthor demoRendererJob) ++
          (if (none : Option (ProwJob → Except String String)).isSome then ["", ""] else []) ++
          closingLines)) ∧
    (["x | y"] ≠ ([] : List String) →
      createComment none (demoRendererJob :: []) ["x | y"] =
        .ok (String.intercalate "\n"
          ((if demoRendererJob.spec.type = JobType.postsubmit
              then postsubmitHeader (commentAuthor demoRendererJob) (pluralSuffix ["x | y"])
              else presubmitHeader (commentAuthor demoRendererJob) (pluralSuffix ["x | y"])) ++
            ["x | y"] ++
            (if (none : Option (ProwJob → Except String String)).isSome then ["", ""] else []) ++
            closingLines)))) :=
  ⟨rfl, renderer_zero_entries_passed_variant none demoRendererJob [] ["x | y"] "" rfl⟩

/-- One remote GitHub operation, as issued by the synchronizer (reads and
mutations, in call order). -/
inductive RemoteCall
  | botChecker
  | listIssueComments (org repo : String) (number : Int)
  | listCommitComments (org repo sha : String)
  | createStatus (org repo sha : String) (s : Status)
  | createComment (org repo : String) (number : Int) (body : String)
  | deleteComment (org repo : String) (id : Int)
  | editComment (org repo : String) (id : Int) (body : String)
  | createCommitComment (org repo sha body : String)
deriving DecidableEq, Repr

/-- The remote comment store and bot identity, as pure functions giving
each listing call's result (the Go client's read calls; mutations are
modelled as always succeeding). -/
structure GHClientData where
  isBot : String → Bool
  issueComments : String → String → Int → List IssueComment
  commitComments : String → String → String → List IssueComment

/-- `ShouldReport`: the job's kind must be in the allowed set and its
report flag set. -/
def ShouldReport (pj : ProwJob) (validTypes : List JobType) : Bool :=
  if !(validTypes.any (fun t => pj.spec.type == t)) then false
  else if !pj.spec.report then false
  else true

/-- `config.ContextDescriptionWithBaseSha`, an external collaborator of the
config package.  Modelled from the spec: truncation/formatting of the
description is the external collaborator's policy (§6), never inspected by
this subsystem, so it is modelled as the identity on the description. -/
def ContextDescriptionWithBaseSha (description baseSHA : String) : String :=
  description

/-- `reportStatus`: one status call when the report flag is set, at the
pull head for non-postsubmit jobs with a pull, else at the base commit. -/
def reportStatus (pj : ProwJob) : Except String (List RemoteCall) :=
  let refs := pj.spec.refs
  if pj.spec.report then
    match prowjobStateToGitHubStatus pj.status.state with
    | .error e => .error e
    | .ok contextState =>
      let sha :=
        if refs.pulls.length > 0 && !(pj.spec.type == JobType.postsubmit) then
          (refs.pulls.headD default).sha
        else refs.baseSHA
      .ok [RemoteCall.createStatus refs.org refs.repo sha
            { state := contextState
              description := ContextDescriptionWithBaseSha pj.status.description refs.baseSHA
              context := pj.spec.context
              targetURL := pj.status.url }]
  else .ok []

/-- `createOrUpdateComments`: list the relevant comments, reconcile, delete
stale comments, then create or update as decided.  Go indexes `pjs[0]`;
every caller passes a non-empty group, and the empty case is modelled as a
no-op. -/
def createOrUpdateComments (data : GHClientData)
    (reportTemplate : Option (ProwJob → Except String String))
    (pjs : List ProwJob) (mustComment : Bool) : Except String (List RemoteCall) :=
  match pjs with
  | [] => .ok []
  | pj0 :: _ =>
    let refs := pj0.spec.refs
    let isPostsubmit := pj0.spec.type == JobType.postsubmit
    if !isPostsubmit && refs.pulls.isEmpty then .ok []
    else
      let listCall :=
        if isPostsubmit then RemoteCall.listCommitComments refs.org refs.repo refs.baseSHA
        else RemoteCall.listIssueComments refs.org refs.repo (refs.pulls.headD default).number
      let comments :=
        if isPostsubmit then data.commitComments refs.org refs.repo refs.baseSHA
        else data.issueComments refs.org refs.repo (refs.pulls.headD default).number
      let reads := [listCall, RemoteCall.botChecker]
      let parsed := parseIssueComments pjs data.isBot comments
      let deleteCalls := parsed.1.map (fun i => RemoteCall.deleteComment refs.org refs.repo i)
      if parsed.2.1.length > 0 || mustComment then
        match createComment reportTemplate pjs parsed.2.1 with
        | .error e => .error ("generating comment: " ++ e)
        | .ok comment =>
          if parsed.2.2 = 0 then
            if isPostsubmit then
              .ok (reads ++ deleteCalls ++
                [RemoteCall.createCommitComment refs.org refs.repo refs.baseSHA comment])
            else
              .ok (reads ++ deleteCalls ++
                [RemoteCall.createComment refs.org refs.repo
                  (refs.pulls.headD default).number comment])
          else
            .ok (reads ++ deleteCalls ++
              [RemoteCall.editComment refs.org refs.repo parsed.2.2 comment])
      else
        .ok (reads ++ deleteCalls)

/-- `ReportStatusContext`: reject a missing client, skip non-reportable
jobs and multi-pull batches, then set the status. -/
def ReportStatusContext (ghc : Option GHClientData) (pj : ProwJob)
    (config : GitHubReporter) : Except String (List RemoteCall) :=
  match ghc with
  | none => .error ("trying to report pj " ++ pj.name ++ ", but found empty github client")
  | some _ =>
    if !(ShouldReport pj config.jobTypesToReport) then .ok []
    else if pj.spec.refs.pulls.length > 1 then .ok []
    else
      match reportStatus pj with
      | .error e => .error ("error setting status: " ++ e)
      | .ok calls => .ok calls

/-- `issueHasComment`: some listed comment is bot-authored and contains the
text.  (Its bot-checker and listing reads appear in the caller's trace.) -/
def issueHasComment (data : GHClientData) (org repo : String) (number : Int)
    (comment : String) : Bool :=
  (data.issueComments org repo number).any
    (fun c => data.isBot c.user.login && strContains c.body comment)

/-- The guard `cfg != nil && cfg.GitHub != nil && cfg.GitHub.CommentOnPostsubmits`
of `ReportComment`. -/
def commentOnPostsubmitsEnabled (pj : ProwJob) : Bool :=
  match pj.spec.reporterConfig with
  | some cfg =>
    match cfg.github with
    | some gh => gh.commentOnPostsubmits
    | none => false
  | none => false

/-- `ReportComment`: split the batch into reportable complete presubmit
jobs and comment-enabled complete postsubmit jobs, sync a comment for each
non-empty group, then post the one-time note for postsubmit batches with an
associated pull. -/
def ReportComment (ghc : Option GHClientData)
    (reportTemplate : Option (ProwJob → Except String String))
    (pjs : List ProwJob) (config : GitHubReporter) (mustCreate : Bool) :
    Except String (List RemoteCall) :=
  match ghc with
  | none => .error "trying to report pj, but found empty github client"
  | some data =>
    let presubmitPjs := pjs.filter (fun pj =>
      ShouldReport pj config.jobTypesToReport && pj.complete &&
        !(pj.spec.type == JobType.postsubmit))
    let postsubmitPjs := pjs.filter (fun pj =>
      ShouldReport pj config.jobTypesToReport && pj.complete &&
        (pj.spec.type == JobType.postsubmit) && commentOnPostsubmitsEnabled pj)
    match (if presubmitPjs.isEmpty then (.ok [] : Except String (List RemoteCall))
           else createOrUpdateComments data reportTemplate presubmitPjs mustCreate) with
    | .error e => .error e
    | .ok preCalls =>
      match (if postsubmitPjs.isEmpty then (.ok [] : Except String (List RemoteCall))
             else createOrUpdateComments data reportTemplate postsubmitPjs mustCreate) with
      | .error e => .error e
      | .ok postCalls =>
        match postsubmitPjs with
        | [] => .ok (preCalls ++ postCalls)
        | pj0 :: _ =>
          let refs := pj0.spec.refs
          match refs.pulls with
          | [] => .ok (preCalls ++ postCalls)
          | pull :: _ =>
            let noteReads := [RemoteCall.botChecker,
              RemoteCall.listIssueComments refs.org refs.repo pull.number]
            if issueHasComment data refs.org refs.repo pull.number prCommitNote then
              .ok (preCalls ++ postCalls ++ noteReads)
            else
              .ok (preCalls ++ postCalls ++ noteReads ++
                [RemoteCall.createComment refs.org refs.repo pull.number
                  (prCommitNote ++ " " ++ refs.baseSHA ++ "\n")])

/-- The comments the synchronizer lists for a batch headed by `pj0`:
commit comments of the base commit for post-merge, issue comments of the
first pull otherwise. -/
def syncListing (data : GHClientData) (pj0 : ProwJob) : List IssueComment :=
  if pj0.spec.type == JobType.postsubmit then
    data.commitComments pj0.spec.refs.org pj0.spec.refs.repo pj0.spec.refs.baseSHA
  else
    data.issueComments pj0.spec.refs.org pj0.spec.refs.repo
      (pj0.spec.refs.pulls.headD default).number

/-- The two read calls the synchronizer always makes on the reporting path:
the listing and the bot-identity lookup. -/
def syncReads (pj0 : ProwJob) : List RemoteCall :=
  [if pj0.spec.type == JobType.postsubmit then
      RemoteCall.listCommitComments pj0.spec.refs.org pj0.spec.refs.repo pj0.spec.refs.baseSHA
    else
      RemoteCall.listIssueComments pj0.spec.refs.org pj0.spec.refs.repo
        (pj0.spec.refs.pulls.headD default).number,
   RemoteCall.botChecker]

/-- The delete calls for a reconciler deletion set. -/
def syncDeletes (pj0 : ProwJob) (ids : List Int) : List RemoteCall :=
  ids.map (fun i => RemoteCall.deleteComment pj0.spec.refs.org pj0.spec.refs.repo i)

/-- The create call the synchronizer issues: a commit comment for
post-merge batches, an issue comment otherwise. -/
def syncCreate (pj0 : ProwJob) (body : String) : RemoteCall :=
  if pj0.spec.type == JobType.postsubmit then
    RemoteCall.createCommitComment pj0.spec.refs.org pj0.spec.refs.repo
      pj0.spec.refs.baseSHA body
  else
    RemoteCall.createComment pj0.spec.refs.org pj0.spec.refs.repo
      (pj0.spec.refs.pulls.headD default).number body

/-- The update call against a retained "latest" comment. -/
def syncEdit (pj0 : ProwJob) (id : Int) (body : String) : RemoteCall :=
  RemoteCall.editComment pj0.spec.refs.org pj0.spec.refs.repo id body

/-- The reconciler's final entry list in closed form: surviving history
followed by the freshly rendered Failure rows. -/
theorem parseIssueComments_entries (pjs : List ProwJob) (isBot : String → Bool)
    (ics : List IssueComment) :
    (parseIssueComments pjs isBot ics).2.1 =
      newEntriesOf (scanComments isBot ics).entries (pjs.map (fun pj => pj.spec.context)) ++
        (pjs.filter (fun pj => pj.status.state == StatusFailure)).map createEntry := by
  simp only [parseIssueComments, appendFresh_eq]
  split <;> rfl

/-- If some job of the batch failed, the final entry list is non-empty
(the fresh rows are appended unconditionally). -/
theorem entries_nonempty_of_mustCreateNew (pjs : List ProwJob) (isBot : String → Bool)
    (ics : List IssueComment)
    (h : pjs.any (fun pj => pj.status.state == StatusFailure) = true) :
    (parseIssueComments pjs isBot ics).2.1 ≠ [] := by
  rw [parseIssueComments_entries]
  intro hcontra
  have h2 := (List.append_eq_nil.mp hcontra).2
  rw [List.map_eq_nil, List.filter_eq_nil] at h2
  rw [List.any_eq_true] at h
  obtain ⟨pj, hmem, hp⟩ := h
  exact h2 pj hmem hp

/-- A non-zero update target means "latest" was retained, which only
happens when no fresh Failure row was appended and the final entry list is
non-empty. -/
theorem updateID_ne_zero_retained (pjs : List ProwJob) (isBot : String → Bool)
    (ics : List IssueComment)
    (h : (parseIssueComments pjs isBot ics).2.2 ≠ 0) :
    (parseIssueComments pjs isBot ics).2.1 ≠ [] ∧
      pjs.any (fun pj => pj.status.state == StatusFailure) = false := by
  simp only [parseIssueComments] at h ⊢
  set fresh := appendFresh pjs (newEntriesOf (scanComments isBot ics).entries
    (pjs.map (fun pj => pj.spec.context))) with hfresh
  by_cases hc : ((fresh.2 || fresh.1.isEmpty) && ((scanComments isBot ics).latest != 0)) = true
  · rw [if_pos hc] at h
    exact absurd rfl h
  · rw [if_neg hc] at h ⊢
    have hl : ((scanComments isBot ics).latest != 0) = true := by
      simpa [bne_iff_ne] using h
    have hor : (fresh.2 || fresh.1.isEmpty) = false := by
      cases hb : (fresh.2 || fresh.1.isEmpty)
      · rfl
      · exact absurd (by simp [hb, hl]) hc
    have h2 : fresh.2 = false := by
      cases hb2 : fresh.2
      · rfl
      · rw [hb2] at hor
        simp at hor
    have hempty : fresh.1.isEmpty = false := by
      cases hb1 : fresh.1.isEmpty
      · rfl
      · rw [hb1] at hor
        simp at hor
    constructor
    · intro hnil
      rw [hnil] at hempty
      simp at hempty
    · have hf2 : fresh.2 = pjs.any (fun pj => pj.status.state == StatusFailure) := by
        rw [hfresh, appendFresh_eq]
      rw [← hf2]
      exact h2

/-- Evaluation of the synchronizer on a non-empty batch whose head is
either post-merge or carries a pull: reads, deletes, then the
create/update/nothing decision. -/
theorem createOrUpdateComments_eval (data : GHClientData)
    (reportTemplate : Option (ProwJob → Except String String))
    (pj0 : ProwJob) (rest : List ProwJob) (mustComment : Bool)
    (hpath : pj0.spec.type = JobType.postsubmit ∨ pj0.spec.refs.pulls ≠ []) :
    createOrUpdateComments data reportTemplate (pj0 :: rest) mustComment =
      (if (parseIssueComments (pj0 :: rest) data.isBot (syncListing data pj0)).2.1.length > 0
          || mustComment then
        match createComment reportTemplate (pj0 :: rest)
            (parseIssueComments (pj0 :: rest) data.isBot (syncListing data pj0)).2.1 with
        | .error e => .error ("generating comment: " ++ e)
        | .ok comment =>
          if (parseIssueComments (pj0 :: rest) data.isBot (syncListing data pj0)).2.2 = 0 then
            .ok (syncReads pj0 ++
              syncDeletes pj0 (parseIssueComments (pj0 :: rest) data.isBot (syncListing data pj0)).1 ++
              [syncCreate pj0 comment])
          else
            .ok (syncReads pj0 ++
              syncDeletes pj0 (parseIssueComments (pj0 :: rest) data.isBot (syncListing data pj0)).1 ++
              [syncEdit pj0 (parseIssueComments (pj0 :: rest) data.isBot (syncListing data pj0)).2.2 comment])
      else
        .ok (syncReads pj0 ++
          syncDeletes pj0 (parseIssueComments (pj0 :: rest) data.isBot (syncListing data pj0)).1)) := by
  have hskip : (!(pj0.spec.type == JobType.postsubmit) && pj0.spec.refs.pulls.isEmpty) = false := by
    rcases hpath with h | h
    · simp [h]
    · cases hp : pj0.spec.refs.pulls with
      | nil => exact absurd hp h
      | cons a l => simp [hp]
  by_cases hpost : (pj0.spec.type == JobType.postsubmit) = true
  · simp [createOrUpdateComments, syncListing, syncReads, syncDeletes, syncCreate, syncEdit,
      hpost, hskip]
  · simp only [Bool.not_eq_true] at hpost
    have hpulls : pj0.spec.refs.pulls ≠ [] := by
      rcases hpath with h | h
      · rw [h] at hpost
        simp at hpost
      · exact h
    have hempty : pj0.spec.refs.pulls.isEmpty = false := by
      cases hp : pj0.spec.refs.pulls with
      | nil => exact absurd hp hpulls
      | cons a l => simp [hp]
    simp [createOrUpdateComments, syncListing, syncReads, syncDeletes, syncCreate, syncEdit,
      hpost, hempty]

/-- C3: after reconciliation the synchronizer issues a create when a fresh
Failure entry was appended (or the force flag is set with non-empty
entries) and "latest" was not retained (update target 0); it issues an
update against the retained "latest" with the merged list when "latest" was
retained and no fresh Failure entry was appended; and with an empty final
entry list and no force flag it issues neither, only the reads and the
deletions. -/
theorem synchronizer_create_update_decision (data : GHClientData)
    (reportTemplate : Option (ProwJob → Except String String))
    (pj0 : ProwJob) (rest : List ProwJob) (mustComment : Bool) (body : String)
    (hpath : pj0.spec.type = JobType.postsubmit ∨ pj0.spec.refs.pulls ≠ [])
    (hbody : createComment reportTemplate (pj0 :: rest)
      (parseIssueComments (pj0 :: rest) data.isBot (syncListing data pj0)).2.1 = .ok body) :
    (((pj0 :: rest).any (fun pj => pj.status.state == StatusFailure) = true ∨
        (mustComment = true ∧
          (parseIssueComments (pj0 :: rest) data.isBot (syncListing data pj0)).2.1 ≠ [])) →
      (parseIssueComments (pj0 :: rest) data.isBot (syncListing data pj0)).2.2 = 0 →
      createOrUpdateComments data reportTemplate (pj0 :: rest) mustComment =
        .ok (syncReads pj0 ++
          syncDeletes pj0 (parseIssueComments (pj0 :: rest) data.isBot (syncListing data pj0)).1 ++
          [syncCreate pj0 body])) ∧
    ((parseIssueComments (pj0 :: rest) data.isBot (syncListing data pj0)).2.2 ≠ 0 →
      (pj0 :: rest).any (fun pj => pj.status.state == StatusFailure) = false →
      createOrUpdateComments data reportTemplate (pj0 :: rest) mustComment =
        .ok (syncReads pj0 ++
          syncDeletes pj0 (parseIssueComments (pj0 :: rest) data.isBot (syncListing data pj0)).1 ++
          [syncEdit pj0 (parseIssueComments (pj0 :: rest) data.isBot (syncListing data pj0)).2.2 body])) ∧
    ((parseIssueComments (pj0 :: rest) data.isBot (syncListing data pj0)).2.1 = [] →
      mustComment = false →
      createOrUpdateComments data reportTemplate (pj0 :: rest) mustComment =
        .ok (syncReads pj0 ++
          syncDeletes pj0 (parseIssueComments (pj0 :: rest) data.isBot (syncListing data pj0)).1)) := by
  refine ⟨?_, ?_, ?_⟩
  · intro hcre hupd
    rw [createOrUpdateComments_eval data reportTemplate pj0 rest mustComment hpath]
    have hlen : ((parseIssueComments (pj0 :: rest) data.isBot (syncListing data pj0)).2.1.length > 0
        || mustComment) = true := by
      rcases hcre with hmc | ⟨hm, hne⟩
      · have hne := entries_nonempty_of_mustCreateNew (pj0 :: rest) data.isBot
          (syncListing data pj0) hmc
        simp [List.length_pos.mpr hne]
      · simp [hm]
    rw [if_pos hlen, hbody]
    simp [hupd]
  · intro hne hany
    obtain ⟨hentries, _⟩ := updateID_ne_zero_retained (pj0 :: rest) data.isBot
      (syncListing data pj0) hne
    rw [createOrUpdateComments_eval data reportTemplate pj0 rest mustComment hpath]
    have hlen : ((parseIssueComments (pj0 :: rest) data.isBot (syncListing data pj0)).2.1.length > 0
        || mustComment) = true := by
      simp [List.length_pos.mpr hentries]
    rw [if_pos hlen, hbody]
    simp [hne]
  · intro hnil hmc
    rw [createOrUpdateComments_eval data reportTemplate pj0 rest mustComment hpath]
    rw [if_neg (by simp [hnil, hmc])]

/-- A concrete bot-identity predicate, as in the package's tests. -/
def demoIsBot (s : String) : Bool := s == "k8s-ci-robot"

/-- A concrete comment history: an outsider's comment, two own marked
comments, and an own comment without the marker. -/
def demoIcs : List IssueComment :=
  [⟨7, ⟨"human"⟩, "--- | ---\nzz | yy\n\n" ++ commentTag⟩,
   ⟨123, ⟨"k8s-ci-robot"⟩, "--- | --- | ---\nbla test | something | or other\n\n" ++ commentTag⟩,
   ⟨124, ⟨"k8s-ci-robot"⟩, "no marker here"⟩,
   ⟨125, ⟨"k8s-ci-robot"⟩, "--- | --- | ---\nfoo test | beep | boop\n\n" ++ commentTag⟩]

/-- Witness for C4: the characterization evaluated on the concrete
history. -/
theorem history_parser_characterization_witness :
    (∀ ic ∈ demoIcs, ic.id ≠ 0) ∧
    ((scanComments demoIsBot demoIcs).entries =
      (demoIcs.filter (ownMarked demoIsBot)).flatMap
        (fun ic => captureLines (strSplit ic.body "\n") false) ∧
    (scanComments demoIsBot demoIcs).previous ++
        (if (scanComments demoIsBot demoIcs).latest != 0
          then [(scanComments demoIsBot demoIcs).latest] else []) =
      (demoIcs.filter (ownMarked demoIsBot)).map (fun ic => ic.id) ∧
    (scanComments demoIsBot demoIcs).latest =
      ((demoIcs.filter (ownMarked demoIsBot)).map (fun ic => ic.id)).getLastD 0) :=
  ⟨by decide, history_parser_characterization demoIsBot demoIcs (by decide)⟩

/-- C5: the status mapper is exhaustive over the six outcome states —
Triggered and Pending map to pending, Success to success, Error to error,
Failure and Aborted to failure — and any other outcome value yields an
"unknown state" error rather than a default status. -/
theorem mapper_exhaustive_and_fails_on_unknown :
    prowjobStateToGitHubStatus TriggeredState = .ok StatusPending ∧
    prowjobStateToGitHubStatus PendingState = .ok StatusPending ∧
    prowjobStateToGitHubStatus SuccessState = .ok StatusSuccess ∧
    prowjobStateToGitHubStatus ErrorState = .ok StatusError ∧
    prowjobStateToGitHubStatus FailureState = .ok StatusFailure ∧
    prowjobStateToGitHubStatus AbortedState = .ok StatusFailure ∧
    ∀ s : String,
      s ∉ [TriggeredState, PendingState, SuccessState, ErrorState,
        FailureState, AbortedState] →
      prowjobStateToGitHubStatus s = .error ("Unknown prowjob state: " ++ s) := by
  refine ⟨rfl, rfl, rfl, rfl, rfl, rfl, ?_⟩
  intro s hs
  simp only [List.mem_cons, List.not_mem_nil, or_false, not_or] at hs
  obtain ⟨h1, h2, h3, h4, h5, h6⟩ := hs
  simp [prowjobStateToGitHubStatus, h1, h2, h3, h4, h5, h6]

/-- Witness for C5: the unknown-state clause evaluated at the concrete
state "bogus". -/
theorem mapper_exhaustive_and_fails_on_unknown_witness :
    prowjobStateToGitHubStatus "bogus" = .error ("Unknown prowjob state: " ++ "bogus") :=
  mapper_exhaustive_and_fails_on_unknown.2.2.2.2.2.2 "bogus" (by decide)

/-- A remote store with no comments at all, and the test bot identity. -/
def demoClient : GHClientData :=
  { isBot := fun s => s == "k8s-bot"
    issueComments := fun _ _ _ => []
    commitComments := fun _ _ _ => [] }

/-- A reportable, complete presubmit job whose refs carry two pulls. -/
def demoMultiPullJob : ProwJob :=
  { name := "multi-pull-job", labels := [],
    spec := { type := .presubmit, report := true, context := "bla test",
              refs := { org := "k8s", repo := "test-infra", baseSHA := "SHA",
                        author := "", pulls := [⟨1, "a", "me"⟩, ⟨2, "b", "you"⟩] },
              rerunCommand := "", reporterConfig := none },
    status := { state := "success", url := "", description := "",
                completionTime := some 1 } }

/-- A reporter configuration allowing presubmit jobs. -/
def demoCfg : GitHubReporter := ⟨[JobType.presubmit]⟩

/-- Counterexample to C7 as stated: `ReportComment` does not reject a batch
whose first job carries more than one pull reference — for this concrete
complete, reportable two-pull presubmit batch it performs remote calls (the
issue-comment listing against the first pull and the bot lookup). -/
theorem entry_point_multipull_not_rejected_counterexample :
    demoMultiPullJob.spec.refs.pulls.length > 1 ∧
    ReportComment (some demoClient) none [demoMultiPullJob] demoCfg false =
      .ok [RemoteCall.listIssueComments "k8s" "test-infra" 1, RemoteCall.botChecker] ∧
    ([RemoteCall.listIssueComments "k8s" "test-infra" 1, RemoteCall.botChecker] :
      List RemoteCall) ≠ [] := by
  refine ⟨by decide, by decide, by decide⟩

/-- C7 amended: a nil client is rejected with an error by both entry points
before any remote call; `ReportStatusContext` (which handles the status
side) skips a job whose refs carry more than one pull without remote calls;
and `ReportComment` returns with no remote calls on an empty batch.
(`ReportComment` itself does not reject multi-pull batches; it reconciles
against the first pull.) -/
theorem entry_point_precondition_rejections (pj : ProwJob) (cfg : GitHubReporter)
    (data : GHClientData) (tmpl : Option (ProwJob → Except String String))
    (pjs : List ProwJob) (mc : Bool)
    (hmp : pj.spec.refs.pulls.length > 1) :
    ReportStatusContext none pj cfg =
      .error ("trying to report pj " ++ pj.name ++ ", but found empty github client") ∧
    ReportComment none tmpl pjs cfg mc =
      .error "trying to report pj, but found empty github client" ∧
    ReportStatusContext (some data) pj cfg = .ok [] ∧
    ReportComment (some data) tmpl [] cfg mc = .ok [] := by
  refine ⟨rfl, rfl, ?_, ?_⟩
  · rw [ReportStatusContext]
    by_cases hsr : ShouldReport pj cfg.jobTypesToReport = true
    · simp [hsr, hmp]
    · simp [hsr]
  · rfl

/-- Witness for the amended C7: evaluated at the concrete two-pull job. -/
theorem entry_point_precondition_rejections_witness :
    demoMultiPullJob.spec.refs.pulls.length > 1 ∧
    (ReportStatusContext none demoMultiPullJob demoCfg =
      .error ("trying to report pj " ++ demoMultiPullJob.name ++ ", but found empty github client") ∧
    ReportComment none none [demoMultiPullJob] demoCfg false =
      .error "trying to report pj, but found empty github client" ∧
    ReportStatusContext (some demoClient) demoMultiPullJob demoCfg = .ok [] ∧
    ReportComment (some demoClient) none [] demoCfg false = .ok []) :=
  ⟨by decide,
   entry_point_precondition_rejections demoMultiPullJob demoCfg demoClient none
     [demoMultiPullJob] false (by decide)⟩

/-- Filtering by `q` first does not change a filter by a stronger
predicate `p`. -/
theorem filter_absorb {α : Type} (l : List α) (p q : α → Bool)
    (h : ∀ a, p a = true → q a = true) :
    (l.filter q).filter p = l.filter p := by
  induction l with
  | nil => rfl
  | cons a t ih =>
    by_cases hq : q a = true
    · by_cases hp : p a = true
      · simp [List.filter_cons, hq, hp, ih]
      · simp only [Bool.not_eq_true] at hp
        simp [List.filter_cons, hq, hp, ih]
    · have hp : p a = false := by
        cases hpa : p a
        · rfl
        · exact absurd (h a hpa) hq
      simp only [Bool.not_eq_true] at hq
      simp [List.filter_cons, hq, hp, ih]

/-- C10: `ReportComment` silently excludes incomplete jobs and post-merge
jobs without the comment-on-postsubmits opt-in — removing them from the
batch beforehand does not change its behavior at all — and a batch in which
every job is excluded by those two rules results in no remote calls. -/
theorem reportcomment_excludes_incomplete_and_disabled (data : GHClientData)
    (tmpl : Option (ProwJob → Except String String)) (pjs : List ProwJob)
    (cfg : GitHubReporter) (mc : Bool) :
    ReportComment (some data) tmpl pjs cfg mc =
      ReportComment (some data) tmpl (pjs.filter (fun pj => pj.complete)) cfg mc ∧
    ReportComment (some data) tmpl pjs cfg mc =
      ReportComment (some data) tmpl
        (pjs.filter (fun pj =>
          !(pj.spec.type == JobType.postsubmit) || commentOnPostsubmitsEnabled pj)) cfg mc ∧
    ((∀ pj ∈ pjs, pj.complete = false ∨
        (pj.spec.type = JobType.postsubmit ∧ commentOnPostsubmitsEnabled pj = false)) →
      ReportComment (some data) tmpl pjs cfg mc = .ok []) := by
  refine ⟨?_, ?_, ?_⟩
  · have h1 : (pjs.filter (fun pj => pj.complete)).filter (fun pj =>
        ShouldReport pj cfg.jobTypesToReport && pj.complete &&
          !(pj.spec.type == JobType.postsubmit)) =
        pjs.filter (fun pj =>
          ShouldReport pj cfg.jobTypesToReport && pj.complete &&
            !(pj.spec.type == JobType.postsubmit)) := by
      refine filter_absorb pjs _ _ (fun a ha => ?_)
      simp only [Bool.and_eq_true] at ha
      exact ha.1.2
    have h2 : (pjs.filter (fun pj => pj.complete)).filter (fun pj =>
        ShouldReport pj cfg.jobTypesToReport && pj.complete &&
          (pj.spec.type == JobType.postsubmit) && commentOnPostsubmitsEnabled pj) =
        pjs.filter (fun pj =>
          ShouldReport pj cfg.jobTypesToReport && pj.complete &&
            (pj.spec.type == JobType.postsubmit) && commentOnPostsubmitsEnabled pj) := by
      refine filter_absorb pjs _ _ (fun a ha => ?_)
      simp only [Bool.and_eq_true] at ha
      exact ha.1.1.2
    simp only [ReportComment, h1, h2]
  · have h1 : (pjs.filter (fun pj =>
        !(pj.spec.type == JobType.postsubmit) || commentOnPostsubmitsEnabled pj)).filter (fun pj =>
        ShouldReport pj cfg.jobTypesToReport && pj.complete &&
          !(pj.spec.type == JobType.postsubmit)) =
        pjs.filter (fun pj =>
          ShouldReport pj cfg.jobTypesToReport && pj.complete &&
            !(pj.spec.type == JobType.postsubmit)) := by
      refine filter_absorb pjs _ _ (fun a ha => ?_)
      simp only [Bool.and_eq_true] at ha
      simp [ha.2]
    have h2 : (pjs.filter (fun pj =>
        !(pj.spec.type == JobType.postsubmit) || commentOnPostsubmitsEnabled pj)).filter (fun pj =>
        ShouldReport pj cfg.jobTypesToReport && pj.complete &&
          (pj.spec.type == JobType.postsubmit) && commentOnPostsubmitsEnabled pj) =
        pjs.filter (fun pj =>
          ShouldReport pj cfg.jobTypesToReport && pj.complete &&
            (pj.spec.type == JobType.postsubmit) && commentOnPostsubmitsEnabled pj) := by
      refine filter_absorb pjs _ _ (fun a ha => ?_)
      simp only [Bool.and_eq_true] at ha
      simp [ha.2]
    simp only [ReportComment, h1, h2]
  · intro hall
    have h1 : pjs.filter (fun pj =>
        ShouldReport pj cfg.jobTypesToReport && pj.complete &&
          !(pj.spec.type == JobType.postsubmit)) = [] := by
      rw [List.filter_eq_nil]
      intro pj hm
      rcases hall pj hm with hc | ⟨hpost, _⟩
      · simp [hc]
      · simp [hpost]
    have h2 : pjs.filter (fun pj =>
        ShouldReport pj cfg.jobTypesToReport && pj.complete &&
          (pj.spec.type == JobType.postsubmit) && commentOnPostsubmitsEnabled pj) = [] := by
      rw [List.filter_eq_nil]
      intro pj hm
      rcases hall pj hm with hc | ⟨_, hen⟩
      · simp [hc]
      · simp [hen]
    simp [ReportComment, h1, h2]

/-- An incomplete presubmit job (completion timestamp unset). -/
def demoIncompleteJob : ProwJob :=
  { name := "incomplete-job", labels := [],
    spec := { type := .presubmit, report := true, context := "bla test",
              refs := { org := "k8s", repo := "test-infra", baseSHA := "SHA",
                        author := "", pulls := [⟨1, "a", "me"⟩] },
              rerunCommand := "", reporterConfig := none },
    status := { state := "failure", url := "", description := "",
                completionTime := none } }

/-- Witness for C10: the all-excluded clause evaluated at a concrete batch
of one incomplete job and one non-opted-in postsubmit job. -/
theorem reportcomment_excludes_incomplete_and_disabled_witness :
    (∀ pj ∈ [demoIncompleteJob,
        { demoIncompleteJob with
            name := "post-job"
            spec := { demoIncompleteJob.spec with type := .postsubmit }
            status := { demoIncompleteJob.status with completionTime := some 1 } }],
      pj.complete = false ∨
        (pj.spec.type = JobType.postsubmit ∧ commentOnPostsubmitsEnabled pj = false)) ∧
    ReportComment (some demoClient) none
      [demoIncompleteJob,
        { demoIncompleteJob with
            name := "post-job"
            spec := { demoIncompleteJob.spec with type := .postsubmit }
            status := { demoIncompleteJob.status with completionTime := some 1 } }]
      demoCfg false = .ok [] :=
  ⟨by decide,
   (reportcomment_excludes_incomplete_and_disabled demoClient none _ demoCfg false).2.2
     (by decide)⟩

/-- With no own+marked comment in the history the scan is empty. -/
theorem scanComments_no_history (isBot : String → Bool) (ics : List IssueComment)
    (hist : ∀ ic ∈ ics, ownMarked isBot ic = false) :
    scanComments isBot ics = ⟨[], 0, []⟩ := by
  rw [scanComments]
  suffices h : ∀ s : Scan, ics.foldl (scanStep isBot) s = s from h _
  induction ics with
  | nil => intro s; rfl
  | cons ic rest ih =>
    intro s
    have hic := hist ic (by simp)
    have hstep : scanStep isBot s ic = s := by
      rw [ownMarked, Bool.and_eq_false_iff] at hic
      rcases hic with hb | hm
      · simp [scanStep, hb]
      · by_cases hb : isBot ic.user.login = true
        · simp [scanStep, hb, hm]
        · simp only [Bool.not_eq_true] at hb
          simp [scanStep, hb]
    rw [List.foldl_cons, hstep]
    exact ih (fun x hx => hist x (by simp [hx])) s

/-- The "required" column value as computed inside `createEntry`:
"unknown" unless the presubmit job carries the is-optional label with a
value `strconv.ParseBool` accepts, in which case the formatted negation of
that value. -/
def requiredOf (pj : ProwJob) : String :=
  if pj.spec.type = JobType.presubmit then
    match pj.labels.lookup IsOptionalLabel with
    | some label =>
      match parseBool label with
      | .ok optional => formatBool (!optional)
      | .error _ => "unknown"
    | none => "unknown"
  else "unknown"

/-- A presubmit Failure job carrying no is-optional label at all. -/
def demoNoLabelJob : ProwJob :=
  { name := "no-label-job", labels := [],
    spec := { type := .presubmit, report := true, context := "bla test",
              refs := { org := "k8s", repo := "test-infra", baseSHA := "SHA",
                        author := "", pulls := [⟨1, "abcdef", "me"⟩] },
              rerunCommand := "/test bla", reporterConfig := none },
    status := { state := "failure", url := "http://mytest.com", description := "",
                completionTime := some 1 } }

/-- Counterexample to C8 as stated: this presubmit Failure job carries no
optional label, yet the single fresh entry the reconciler produces has
required field "unknown", not "true". -/
theorem reconciler_required_field_counterexample :
    demoNoLabelJob.labels.lookup IsOptionalLabel = none ∧
    parseIssueComments [demoNoLabelJob] demoIsBot [] =
      ([], [createEntry demoNoLabelJob], 0) ∧
    createEntry demoNoLabelJob =
      "bla test | abcdef | [link](http://mytest.com) | unknown | `/test bla`" ∧
    createEntry demoNoLabelJob ≠
      "bla test | abcdef | [link](http://mytest.com) | true | `/test bla`" := by
  refine ⟨rfl, by decide, by decide, by decide⟩

/-- C8 amended: for a presubmit Failure job against a history with no
own+marked comment, the reconciler deletes nothing, returns exactly the one
freshly rendered entry, and no update target — so repeated calls on the
unchanged remote state return that same single entry; the entry's required
field is "true" exactly when the job carries the is-optional label with a
value parsing to false, and "unknown" when it carries no such label. -/
theorem reconciler_fresh_entry_and_required_field (pj : ProwJob)
    (isBot : String → Bool) (ics : List IssueComment)
    (hpre : pj.spec.type = JobType.presubmit)
    (hfail : pj.status.state = FailureState)
    (hist : ∀ ic ∈ ics, ownMarked isBot ic = false) :
    parseIssueComments [pj] isBot ics = ([], [createEntry pj], 0) ∧
    createEntry pj = String.intercalate " | "
      [pj.spec.context, (pj.spec.refs.pulls.headD default).sha,
       "[link](" ++ pj.status.url ++ ")", requiredOf pj,
       "`" ++ pj.spec.rerunCommand ++ "`"] ∧
    (requiredOf pj = "true" ↔
      ∃ v, pj.labels.lookup IsOptionalLabel = some v ∧ parseBool v = .ok false) ∧
    (pj.labels.lookup IsOptionalLabel = none → requiredOf pj = "unknown") := by
  have hpost : ¬(pj.spec.type = JobType.postsubmit) := by
    rw [hpre]
    intro h
    exact JobType.noConfusion h
  refine ⟨?_, ?_, ?_, ?_⟩
  · have hsf : pj.status.state = StatusFailure := by rw [hfail]; rfl
    simp [parseIssueComments, scanComments_no_history isBot ics hist, newEntriesOf,
      appendFresh, hsf]
  · simp [createEntry, requiredOf, hpost]
  · rw [requiredOf, if_pos hpre]
    cases hl : pj.labels.lookup IsOptionalLabel with
    | none => simp
    | some v =>
      dsimp only
      cases hp : parseBool v with
      | ok b =>
        cases b with
        | false =>
          exact ⟨fun _ => ⟨v, rfl, hp⟩, fun _ => rfl⟩
        | true => simp [formatBool, hp]
      | error e => simp [hp]
  · intro hv
    rw [requiredOf, if_pos hpre, hv]

/-- A presubmit Failure job carrying the is-optional label with value
"false". -/
def demoRequiredJob : ProwJob :=
  { demoNoLabelJob with name := "required-job", labels := [(IsOptionalLabel, "false")] }

/-- Witness for the amended C8: evaluated at the labelled job with an
unmanaged comment as the only history; the final conjunct exhibits the
"true" case concretely. -/
theorem reconciler_fresh_entry_and_required_field_witness :
    (demoRequiredJob.spec.type = JobType.presubmit ∧
     demoRequiredJob.status.state = FailureState ∧
     (∀ ic ∈ [(⟨9, ⟨"human"⟩, "hello"⟩ : IssueComment)], ownMarked demoIsBot ic = false)) ∧
    (parseIssueComments [demoRequiredJob] demoIsBot [⟨9, ⟨"human"⟩, "hello"⟩] =
      ([], [createEntry demoRequiredJob], 0) ∧
    createEntry demoRequiredJob = String.intercalate " | "
      [demoRequiredJob.spec.context, (demoRequiredJob.spec.refs.pulls.headD default).sha,
       "[link](" ++ demoRequiredJob.status.url ++ ")", requiredOf demoRequiredJob,
       "`" ++ demoRequiredJob.spec.rerunCommand ++ "`"] ∧
    (requiredOf demoRequiredJob = "true" ↔
      ∃ v, demoRequiredJob.labels.lookup IsOptionalLabel = some v ∧
        parseBool v = .ok false) ∧
    (demoRequiredJob.labels.lookup IsOptionalLabel = none →
      requiredOf demoRequiredJob = "unknown")) ∧
    requiredOf demoRequiredJob = "true" :=
  ⟨⟨rfl, rfl, by decide⟩,
   reconciler_fresh_entry_and_required_field demoRequiredJob demoIsBot
     [⟨9, ⟨"human"⟩, "hello"⟩] rfl rfl (by decide),
   by decide⟩

/-- A complete postsubmit Failure job with the comment-on-postsubmits
opt-in and an associated pull. -/
def demoPostJob : ProwJob :=
  { name := "postsubmit-job", labels := [],
    spec := { type := .postsubmit, report := true, context := "parent",
              refs := { org := "k8s", repo := "test-infra", baseSHA := "SHA",
                        author := "pusher", pulls := [⟨1, "abcdef", "me"⟩] },
              rerunCommand := "", reporterConfig := some ⟨some ⟨true⟩⟩ },
    status := { state := "failure", url := "http://mytest.com", description := "",
                completionTime := some 1 } }

/-- The comment body rendered for the concrete postsubmit batch. -/
def demoBody : String :=
  (createComment none [demoPostJob]
    (parseIssueComments [demoPostJob] demoClient.isBot
      (syncListing demoClient demoPostJob)).2.1).toOption.getD ""

/-- Witness for C3: the create clause evaluated for the concrete failing
postsubmit batch against an empty remote store. -/
theorem synchronizer_create_update_decision_witness :
    (demoPostJob.spec.type = JobType.postsubmit ∨ demoPostJob.spec.refs.pulls ≠ []) ∧
    createComment none [demoPostJob]
      (parseIssueComments [demoPostJob] demoClient.isBot
        (syncListing demoClient demoPostJob)).2.1 = .ok demoBody ∧
    createOrUpdateComments demoClient none [demoPostJob] false =
      .ok (syncReads demoPostJob ++
        syncDeletes demoPostJob
          (parseIssueComments [demoPostJob] demoClient.isBot
            (syncListing demoClient demoPostJob)).1 ++
        [syncCreate demoPostJob demoBody]) :=
  ⟨Or.inl rfl, rfl,
   (synchronizer_create_update_decision demoClient none demoPostJob [] false demoBody
      (Or.inl rfl) rfl).1 (Or.inl (by decide)) (by decide)⟩

/-- C9: for a batch whose reportable group is postsubmit-only and headed by
a job with an associated pull, the run's trace is the comment-sync trace
followed by the note check (bot lookup and issue-comment listing) and then
exactly one note-create call if and only if no bot-authored comment
containing the note text was listed; `issueHasComment` holds exactly when
such a comment is listed; and any store listing a bot-authored comment
containing the note text (in particular one holding the posted note)
satisfies the check, so a rerun against it issues no second note. -/
theorem note_poster_once_and_absorbing (data : GHClientData)
    (tmpl : Option (ProwJob → Except String String)) (pjs : List ProwJob)
    (cfg : GitHubReporter) (mc : Bool) (pj0 : ProwJob) (ps : List ProwJob)
    (pull : Pull) (prest : List Pull) (t2 : List RemoteCall)
    (hpre : pjs.filter (fun pj => ShouldReport pj cfg.jobTypesToReport && pj.complete &&
      !(pj.spec.type == JobType.postsubmit)) = [])
    (hpost : pjs.filter (fun pj => ShouldReport pj cfg.jobTypesToReport && pj.complete &&
      (pj.spec.type == JobType.postsubmit) && commentOnPostsubmitsEnabled pj) = pj0 :: ps)
    (hpulls : pj0.spec.refs.pulls = pull :: prest)
    (hsync : createOrUpdateComments data tmpl (pj0 :: ps) mc = .ok t2) :
    ReportComment (some data) tmpl pjs cfg mc =
      .ok (t2 ++ [RemoteCall.botChecker,
          RemoteCall.listIssueComments pj0.spec.refs.org pj0.spec.refs.repo pull.number] ++
        (if issueHasComment data pj0.spec.refs.org pj0.spec.refs.repo pull.number prCommitNote
          then []
          else [RemoteCall.createComment pj0.spec.refs.org pj0.spec.refs.repo pull.number
            (prCommitNote ++ " " ++ pj0.spec.refs.baseSHA ++ "\n")])) ∧
    (issueHasComment data pj0.spec.refs.org pj0.spec.refs.repo pull.number prCommitNote = true ↔
      ∃ c ∈ data.issueComments pj0.spec.refs.org pj0.spec.refs.repo pull.number,
        data.isBot c.user.login = true ∧ strContains c.body prCommitNote = true) ∧
    (∀ store : String → String → Int → List IssueComment,
      (∃ c ∈ store pj0.spec.refs.org pj0.spec.refs.repo pull.number,
        data.isBot c.user.login = true ∧ strContains c.body prCommitNote = true) →
      issueHasComment ⟨data.isBot, store, data.commitComments⟩
        pj0.spec.refs.org pj0.spec.refs.repo pull.number prCommitNote = true) := by
  refine ⟨?_, ?_, ?_⟩
  · simp only [ReportComment, hpre, hpost, hpulls, hsync, List.isEmpty_nil, if_true,
      List.isEmpty_cons]
    by_cases hhas : issueHasComment data pj0.spec.refs.org pj0.spec.refs.repo pull.number
        prCommitNote = true
    · simp [hhas]
    · simp only [Bool.not_eq_true] at hhas
      simp [hhas]
  · simp [issueHasComment, List.any_eq_true, Bool.and_eq_true]
  · intro store hex
    obtain ⟨c, hc, hb, hcon⟩ := hex
    simp only [issueHasComment, List.any_eq_true]
    exact ⟨c, hc, by simp [hb, hcon]⟩

/-- The trace of the comment sync for the concrete postsubmit batch. -/
def demoTrace : List RemoteCall :=
  (createOrUpdateComments demoClient none [demoPostJob] false).toOption.getD []

/-- Witness for C9: evaluated for the concrete postsubmit batch against the
empty store (the note is absent, so the note-create call is issued), and
the absorption clause applied to a store holding the posted note. -/
theorem note_poster_once_and_absorbing_witness :
    ([demoPostJob].filter (fun pj => ShouldReport pj (⟨[JobType.postsubmit]⟩ :
        GitHubReporter).jobTypesToReport && pj.complete &&
      !(pj.spec.type == JobType.postsubmit)) = [] ∧
     [demoPostJob].filter (fun pj => ShouldReport pj (⟨[JobType.postsubmit]⟩ :
        GitHubReporter).jobTypesToReport && pj.complete &&
      (pj.spec.type == JobType.postsubmit) && commentOnPostsubmitsEnabled pj) = [demoPostJob] ∧
     createOrUpdateComments demoClient none [demoPostJob] false = .ok demoTrace) ∧
    (ReportComment (some demoClient) none [demoPostJob] ⟨[JobType.postsubmit]⟩ false =
      .ok (demoTrace ++ [RemoteCall.botChecker,
          RemoteCall.listIssueComments demoPostJob.spec.refs.org demoPostJob.spec.refs.repo
            (1 : Int)] ++
        (if issueHasComment demoClient demoPostJob.spec.refs.org demoPostJob.spec.refs.repo 1
            prCommitNote
          then []
          else [RemoteCall.createComment demoPostJob.spec.refs.org demoPostJob.spec.refs.repo 1
            (prCommitNote ++ " " ++ demoPostJob.spec.refs.baseSHA ++ "\n")]))) ∧
    issueHasComment
      ⟨demoClient.isBot,
        fun _ _ _ => [⟨11, ⟨"k8s-bot"⟩, prCommitNote ++ " " ++ "SHA" ++ "\n"⟩],
        demoClient.commitComments⟩
      demoPostJob.spec.refs.org demoPostJob.spec.refs.repo 1 prCommitNote = true := by
  have h := note_poster_once_and_absorbing demoClient none [demoPostJob]
    ⟨[JobType.postsubmit]⟩ false demoPostJob [] ⟨1, "abcdef", "me"⟩ [] demoTrace
    (by decide) (by decide) rfl rfl
  exact ⟨⟨by decide, by decide, rfl⟩, h.1,
    h.2.2 (fun _ _ _ => [⟨11, ⟨"k8s-bot"⟩, prCommitNote ++ " " ++ "SHA" ++ "\n"⟩])
      ⟨⟨11, ⟨"k8s-bot"⟩, prCommitNote ++ " " ++ "SHA" ++ "\n"⟩, by simp, by decide, by decide⟩⟩

/-- A history of one own marked comment, as in the package's tests. -/
def demoC2Ics : List IssueComment :=
  [⟨123, ⟨"k8s-ci-robot"⟩,
    "--- | --- | ---\nbla test | something | or other\n\n" ++ commentTag⟩]

/-- Witness for C2: for the concrete failing batch against a one-comment
history the deletion condition holds and the update target is cleared. -/
theorem reconciler_deletion_set_and_update_target_witness :
    ((([demoNoLabelJob].any (fun pj => pj.status.state == StatusFailure)) ||
        (parseIssueComments [demoNoLabelJob] demoIsBot demoC2Ics).2.1.isEmpty) &&
      ((scanComments demoIsBot demoC2Ics).latest != 0)) = true ∧
    (parseIssueComments [demoNoLabelJob] demoIsBot demoC2Ics).2.2 = 0 :=
  ⟨by decide,
   (reconciler_deletion_set_and_update_target [demoNoLabelJob] demoIsBot demoC2Ics).2
     (by decide)⟩

end Report
